import Mathlib

/-!
Verification of the marker-scanning/splicing engine and the two line-oriented
converters of `Website Creating Automation/website_automation.py`.

Strings are modelled as `List Char`.  Python string primitives (`str.find`,
slicing with negative indices, `str.strip`, `str.splitlines`, `str.replace`,
`str.split`) are given explicit executable models.  Functions of the source
that can diverge (the `while True` loops) are modelled with an explicit fuel
parameter, `none` standing for a computation that has not finished within the
given fuel.  A process-terminating `log_and_terminate` call is modelled as
`none`; non-fatal `log_message` calls are modelled by an accumulated list of
structured `LogMsg` values recording exactly the data interpolated into the
message.
-/

namespace WebsiteAutomation

/-- Normalise a (possibly negative) Python slice index against a string of
length `len`: negative indices count from the end, and the result is clamped
into `[0, len]`. -/
def pyNorm (len : Nat) (i : Int) : Nat :=
  if i < 0 then ((len : Int) + i).toNat else min i.toNat len

/-- Python slice `s[i:]`. -/
def pySliceFrom (s : List Char) (i : Int) : List Char :=
  s.drop (pyNorm s.length i)

/-- Python slice `s[:i]`. -/
def pySliceTo (s : List Char) (i : Int) : List Char :=
  s.take (pyNorm s.length i)

/-- Python slice `s[a:b]`. -/
def pySlice (s : List Char) (a b : Int) : List Char :=
  (s.take (pyNorm s.length b)).drop (pyNorm s.length a)

/-- Python `content.find(sub, start)` restricted to non-negative `start`:
the smallest index `i` with `start ≤ i ≤ content.length` at which `sub`
occurs, or `none` (Python's `-1`) when there is no such index. -/
def strFind (content sub : List Char) (start : Nat) : Option Nat :=
  (List.range (content.length + 1)).find?
    (fun i => decide (start ≤ i) && sub.isPrefixOf (content.drop i))

/-- Python `s.replace(old, new)` for a single-character `old` (the only
shape the source uses: `"&"`, `"<"`, `">"`): replace every occurrence,
scanning left to right. -/
def pyReplaceChar (old : Char) (new : List Char) : List Char → List Char
  | [] => []
  | c :: rest => (if c = old then new else [c]) ++ pyReplaceChar old new rest

/-- Python `s.strip()` (whitespace from both ends; `Char.isWhitespace`
models Python's whitespace class on the characters that occur here). -/
def pyStrip (s : List Char) : List Char :=
  ((s.dropWhile Char.isWhitespace).reverse.dropWhile Char.isWhitespace).reverse

/-- Python `s.splitlines()` for `\n`-separated text (the only separator used
by the inputs of this program): split on `'\n'`, dropping the trailing empty
piece produced by a final newline, and returning `[]` for the empty string. -/
def pySplitlines (s : List Char) : List (List Char) :=
  if s = [] then []
  else
    let parts := s.splitOn '\n'
    if s.getLast? = some '\n' then parts.dropLast else parts

/-- Python `line.split(sep, 1)` returning the two pieces around the first
occurrence of `sep`, or `none` when `sep` does not occur (in which case the
source's subscript `[1]` would raise `IndexError`). -/
def splitFirst (s sep : List Char) : Option (List Char × List Char) :=
  match strFind s sep 0 with
  | none => none
  | some i => some (s.take i, s.drop (i + sep.length))

/-! ### Marker Locator: `find_nth_occurrence` (lines 59-73)

The Python loop increments a counter on every match and advances the scan
cursor by `len(substring)`.  The loop is modelled with fuel; `go` returns
`some (-1)` for Python's explicit `-1` ("not found") and `none` only when the
fuel runs out, which never happens for a non-empty substring. -/

/-- Loop body of `find_nth_occurrence`: `count` matches seen so far, next
scan starts at `start`. -/
def findNthGo (content sub : List Char) (n : Nat) : Nat → Nat → Nat → Option Int
  | _, _, 0 => none
  | count, start, fuel + 1 =>
    match strFind content sub start with
    | none => some (-1)
    | some idx =>
      if count + 1 = n then some (idx : Int)
      else findNthGo content sub n (count + 1) (idx + sub.length) fuel

/-- `find_nth_occurrence(content, substring, n)`: index of the n-th
(1-based, non-overlapping) occurrence, or `-1`.  The fuel
`content.length + n + 2` is enough for every execution of the source loop
that terminates. -/
def find_nth_occurrence (content sub : List Char) (n : Nat) : Option Int :=
  findNthGo content sub n 0 0 (content.length + n + 2)

/-- Interpret an optional position as the Python return value of the
locator: the position itself, or `-1` when absent. -/
def posResult : Option Nat → Int
  | none => -1
  | some i => (i : Int)

/-- Modelled from the spec's words (§4.1): the list of occurrence start
offsets produced by scanning left to right, each match advancing the scan
cursor by the marker's length.  Used only to compare the source's
`find_nth_occurrence` against the specified scan. -/
def scanPositions (content sub : List Char) : Nat → Nat → List Nat
  | _, 0 => []
  | start, fuel + 1 =>
    match strFind content sub start with
    | none => []
    | some i => i :: scanPositions content sub (i + sub.length) fuel

/-- Modelled from the spec's words (§4.1): all non-overlapping occurrence
positions of `sub` in `content`, leftmost first. -/
def locateSpecList (content sub : List Char) : List Nat :=
  scanPositions content sub 0 (content.length + 1)

/-! ### Log messages

The source interpolates markers and occurrence indices into f-strings passed
to `log_message` (non-fatal) or `log_and_terminate` (exits the process); the
structured constructors below record exactly the interpolated data. -/

/-- A log message emitted by the engine, with the data the source
interpolates into the corresponding f-string. -/
inductive LogMsg where
  | startNotFound (marker : List Char) (occurrence : Nat)
  | endNotFound (marker : List Char) (occurrence : Nat)
  | unmatchedStart (start_marker end_marker : List Char)
deriving DecidableEq, Repr

/-! ### Segment Engine: `replace_segment_in_html` (lines 76-112) and
`get_segment_in_html` (lines 575-609)

`replace_segment_in_html` calls `log_message` (not `log_and_terminate`) when
a marker is missing and then keeps going with the `-1` sentinel flowing into
Python's negative-index slicing; `get_segment_in_html` calls
`log_and_terminate`, modelled as `none`.  `none` from the locator itself
(fuel exhaustion, impossible for non-empty markers) is propagated. -/

/-- `replace_segment_in_html(html_content, search_start_marker,
search_end_marker, replacement_text, start_occurrence, end_occurrence)`:
returns the spliced content together with the non-fatal log messages the
call emits.  Faithful to the source, a missing marker is only logged and the
computation continues with the `-1` index. -/
def replace_segment_in_html (html_content search_start_marker search_end_marker
    replacement_text : List Char) (start_occurrence end_occurrence : Nat) :
    Option (List Char × List LogMsg) := do
  let start_index ← find_nth_occurrence html_content search_start_marker start_occurrence
  let logs1 := if start_index = -1 then
    [LogMsg.startNotFound search_start_marker start_occurrence] else []
  let end_index ← find_nth_occurrence
    (pySliceFrom html_content (start_index + search_start_marker.length))
    search_end_marker end_occurrence
  let logs2 := if end_index = -1 then
    [LogMsg.endNotFound search_end_marker end_occurrence] else []
  let end_index := start_index + search_start_marker.length + end_index
  let before := pySliceTo html_content start_index
  let after := pySliceFrom html_content (end_index + search_end_marker.length)
  pure (before ++ replacement_text ++ after, logs1 ++ logs2)

/-- `get_segment_in_html(html_content, search_start_marker,
search_end_marker, start_occurrence, end_occurrence)`: the segment from the
start marker's first character to the end marker's last character.  A missing
marker reaches `log_and_terminate`, which exits the process: modelled as
`none`. -/
def get_segment_in_html (html_content search_start_marker search_end_marker :
    List Char) (start_occurrence end_occurrence : Nat) : Option (List Char) := do
  let start_index ← find_nth_occurrence html_content search_start_marker start_occurrence
  if start_index = -1 then none
  else
    let end_index ← find_nth_occurrence
      (pySliceFrom html_content (start_index + search_start_marker.length))
      search_end_marker end_occurrence
    if end_index = -1 then none
    else
      let end_index := start_index + search_start_marker.length + end_index
      pure (pySlice html_content start_index (end_index + search_end_marker.length))

/-! ### Bulk Marker Replacer: `replace_all_markers_in_html` (lines 346-392)

The inner `while True` loop can fail to terminate (when a replacement
reintroduces the start marker without shrinking the content), so it is
modelled with fuel; `none` means the loop has not exited within the given
fuel. -/

/-- One pair's `while True` loop of `replace_all_markers_in_html`:
repeatedly rewrite the leftmost `start_marker ... end_marker` span into
`start_tag ++ inner ++ end_tag`; an unmatched start marker logs a warning
and abandons the pair. -/
def processPairGo (start_marker end_marker start_tag end_tag : List Char) :
    Nat → List Char → List LogMsg → Option (List Char × List LogMsg)
  | 0, _, _ => none
  | fuel + 1, content, logs =>
    match strFind content start_marker 0 with
    | none => some (content, logs)
    | some start_idx =>
      match strFind content end_marker (start_idx + start_marker.length) with
      | none => some (content, logs ++ [LogMsg.unmatchedStart start_marker end_marker])
      | some end_idx =>
        let inner_content := (content.take end_idx).drop (start_idx + start_marker.length)
        let updated := content.take start_idx ++ start_tag ++ inner_content ++
          end_tag ++ content.drop (end_idx + end_marker.length)
        processPairGo start_marker end_marker start_tag end_tag fuel updated logs

/-- `replace_all_markers_in_html(html_content, markers)`: process the
ordered marker-pair map pair by pair, each pair fully exhausted (with the
per-pair fuel) before the next one starts. -/
def replace_all_markers_in_html (html_content : List Char)
    (markers : List ((List Char × List Char) × (List Char × List Char)))
    (fuel : Nat) : Option (List Char × List LogMsg) :=
  markers.foldlM
    (fun (acc : List Char × List LogMsg) m =>
      processPairGo m.1.1 m.1.2 m.2.1 m.2.2 fuel acc.1 acc.2)
    (html_content, [])

/-! ### Nested List Converter: `docx_to_html_with_docx2python` (lines 209-343)

The DOCX extraction itself (the `docx2python` library call and the
non-empty-paragraph filter) is an external collaborator; the converter is
modelled on the resulting ordered paragraph list.  Emitted fragments are kept
structured (`Frag`) and rendered to the exact strings the source appends to
`html_fragments`; the output is their `"\n"`-join. -/

/-- The two list kinds the source pushes on `list_stack` (`"ul"`/`"ol"`). -/
inductive ListKind where
  | ul
  | ol
deriving DecidableEq, Repr

/-- The tag name string of a list kind. -/
def tagNameOf : ListKind → List Char
  | ListKind.ul => 'u' :: 'l' :: []
  | ListKind.ol => 'o' :: 'l' :: []

/-- One entry of `html_fragments`, kept structured. -/
inductive Frag where
  | openTag (k : ListKind)
  | closeTag (k : ListKind)
  | listItem (content : List Char)
  | paragraphFrag (content : List Char)
deriving DecidableEq, Repr

/-- Render a fragment to the exact string the source appends. -/
def renderFrag (p_start p_end : List Char) : Frag → List Char
  | Frag.openTag k => '<' :: (tagNameOf k ++ ['>'])
  | Frag.closeTag k => '<' :: '/' :: (tagNameOf k ++ ['>'])
  | Frag.listItem s => "<li>".toList ++ s ++ "</li>".toList
  | Frag.paragraphFrag s => p_start ++ s ++ p_end

/-- The converter's mutable state: emitted fragments plus the open-list
stack (`list_stack`; head of the Lean list = top of the Python stack, i.e.
the innermost open list). -/
structure DocxState where
  frags : List Frag
  list_stack : List ListKind
deriving DecidableEq, Repr

/-- `close_all_lists()`: pop and close every open list, innermost first. -/
def close_all_lists (st : DocxState) : DocxState :=
  { frags := st.frags ++ st.list_stack.map Frag.closeTag, list_stack := [] }

/-- `close_to_level(level)`: pop and close lists until the stack depth is
at most `level`. -/
def close_to_level (st : DocxState) (level : Nat) : DocxState :=
  let k := st.list_stack.length - level
  { frags := st.frags ++ (st.list_stack.take k).map Frag.closeTag,
    list_stack := st.list_stack.drop k }

/-- `open_list(list_type)`: push and emit one open tag. -/
def open_list (st : DocxState) (list_type : ListKind) : DocxState :=
  { frags := st.frags ++ [Frag.openTag list_type],
    list_stack := list_type :: st.list_stack }

/-- The `while len(list_stack) < desired_depth: open_list(current_type)`
loop: open `desired - depth` lists of the item's type. -/
def open_lists_to (st : DocxState) (list_type : ListKind) (desired : Nat) : DocxState :=
  let k := desired - st.list_stack.length
  { frags := st.frags ++ List.replicate k (Frag.openTag list_type),
    list_stack := List.replicate k list_type ++ st.list_stack }

/-- The source's number regex `r"^[0-9]+[\.)]\\s?"`: inside a raw string
`\\s` is a literal backslash followed by `s`, so the pattern demands one or
more digits, then `.` or `)`, then a literal backslash (then an optional
`s`). -/
def numberRegexMatch (line : List Char) : Bool :=
  let ds := line.takeWhile Char.isDigit
  decide (ds ≠ []) &&
    match line.drop ds.length with
    | c :: '\\' :: _ => decide (c = '.' ∨ c = ')')
    | _ => false

/-- `re.sub(r"^[0-9]+[\.)]\\s?", "", line)`: remove the digits, the `.`/`)`,
the literal backslash, and an optional following `s`; unchanged when the
pattern does not match. -/
def numberRegexStrip (line : List Char) : List Char :=
  let ds := line.takeWhile Char.isDigit
  if ds = [] then line
  else
    match line.drop ds.length with
    | c :: '\\' :: rest =>
      if c = '.' ∨ c = ')' then
        match rest with
        | 's' :: rest2 => rest2
        | _ => rest
      else line
    | _ => line

/-- The chained `replace` calls escaping `&`, `<`, `>` (in that order). -/
def escape_html_chars (s : List Char) : List Char :=
  pyReplaceChar '>' "&gt;".toList
    (pyReplaceChar '<' "&lt;".toList
      (pyReplaceChar '&' "&amp;".toList s))

/-- Per-character HTML escaping, the specification `escape_html_chars` is
compared against: each source character is emitted escaped exactly once. -/
def escChar (c : Char) : List Char :=
  if c = '&' then "&amp;".toList
  else if c = '<' then "&lt;".toList
  else if c = '>' then "&gt;".toList
  else [c]

/-- Number of leading tab characters of a paragraph. -/
def indentOf (paragraph : List Char) : Nat :=
  (paragraph.takeWhile (fun c => c = '\t')).length

/-- Largest indent of any paragraph of the input (0 for an empty input). -/
def maxIndent (paragraphs : List (List Char)) : Nat :=
  paragraphs.foldr (fun p acc => max (indentOf p) acc) 0

/-- The per-paragraph body of the conversion loop (lines 271-335). -/
def docxStep (st : DocxState) (paragraph : List Char) : DocxState :=
  let indent_level := indentOf paragraph
  let line_stripped := paragraph.drop indent_level
  let bullet_match := ('-' :: '-' :: '\t' :: []).isPrefixOf line_stripped
  let number_match := numberRegexMatch line_stripped
  if bullet_match || number_match then
    let current_type := if bullet_match then ListKind.ul else ListKind.ol
    let desired_depth := indent_level + 1
    let st :=
      if desired_depth < st.list_stack.length then
        close_to_level st desired_depth
      else if st.list_stack.length < desired_depth then
        open_lists_to st current_type desired_depth
      else if st.list_stack.head? ≠ some current_type then
        open_list (close_to_level st (desired_depth - 1)) current_type
      else st
    let item_content :=
      if bullet_match then line_stripped.drop 3
      else numberRegexStrip line_stripped
    { st with frags := st.frags ++ [Frag.listItem (escape_html_chars item_content)] }
  else
    let st := close_all_lists st
    { st with frags := st.frags ++ [Frag.paragraphFrag (escape_html_chars paragraph)] }

/-- The converter's initial state. -/
def docxInit : DocxState := { frags := [], list_stack := [] }

/-- The fragments emitted for a whole paragraph stream, including the final
`close_all_lists()`. -/
def docxFrags (paragraphs : List (List Char)) : List Frag :=
  (close_all_lists (paragraphs.foldl docxStep docxInit)).frags

/-- The state after each paragraph (head = initial state). -/
def docxStates (paragraphs : List (List Char)) : List DocxState :=
  paragraphs.scanl docxStep docxInit

/-- `docx_to_html_with_docx2python` on an extracted paragraph list: the
newline-join of the optional whole-content wrappers and the rendered
fragments. -/
def docx_to_html_with_docx2python (paragraphs : List (List Char))
    (entire_start entire_end p_start p_end : List Char) : List Char :=
  let fragments :=
    (if entire_start ≠ [] then [entire_start] else []) ++
    (docxFrags paragraphs).map (renderFrag p_start p_end) ++
    (if entire_end ≠ [] then [entire_end] else [])
  List.intercalate ['\n'] fragments

/-- Tag-matching checker for a fragment stream: push on an open tag, pop on
a close tag of the same kind, fail (`none`) on a mismatched or unmatched
close.  `runTags frags [] = some []` says every open tag is matched by its
close tag, properly nested. -/
def runTags : List Frag → List ListKind → Option (List ListKind)
  | [], stack => some stack
  | Frag.openTag k :: fs, stack => runTags fs (k :: stack)
  | Frag.closeTag k :: fs, stack =>
    match stack with
    | [] => none
    | k' :: rest => if k = k' then runTags fs rest else none
  | Frag.listItem _ :: fs, stack => runTags fs stack
  | Frag.paragraphFrag _ :: fs, stack => runTags fs stack

/-! ### Markdown Converter: `markdown_to_html` (lines 445-548)

State: the emitted lines plus the three flags `in_list`, `in_ordered_list`,
`in_paragraph`.  The numbered-list branch subscripts
`line.split(". ", 1)[1]`, which raises `IndexError` when `". "` does not
occur in the line; that exception is modelled as `none`. -/

/-- Scanning loop of the bold substitution, structurally recursive on a
fuel that bounds the remaining length (each step consumes at least one
character, so `s.length` fuel is always enough). -/
def boldSubGo : Nat → List Char → List Char
  | _, [] => []
  | 0, s => s
  | fuel + 1, '*' :: '*' :: rest =>
    (match strFind rest ('*' :: '*' :: []) 0 with
     | some j =>
       "<strong>".toList ++ rest.take j ++ "</strong>".toList ++
         boldSubGo fuel (rest.drop (j + 2))
     | none => '*' :: boldSubGo fuel ('*' :: rest))
  | fuel + 1, c :: rest => c :: boldSubGo fuel rest

/-- `re.sub(r"\*\*(.*?)\*\*", r"<strong>\1</strong>", s)`: leftmost-first,
non-overlapping, lazy inner match (the closing `**` is the nearest one). -/
def boldSub (s : List Char) : List Char :=
  boldSubGo s.length s

/-- `re.match(r"\d+\.\s", line)`: one or more digits, a dot, then one
whitespace character. -/
def numberedLineMatch (line : List Char) : Bool :=
  let ds := line.takeWhile Char.isDigit
  decide (ds ≠ []) &&
    match line.drop ds.length with
    | '.' :: c :: _ => c.isWhitespace
    | _ => false

/-- The Markdown Converter's mutable state. -/
structure MdState where
  html_lines : List (List Char)
  in_list : Bool
  in_ordered_list : Bool
  in_paragraph : Bool
deriving DecidableEq, Repr

/-- `close_paragraph()`: emit `</p>` if a paragraph is open. -/
def close_paragraph (st : MdState) : MdState :=
  if st.in_paragraph then
    { st with html_lines := st.html_lines ++ ["</p>".toList], in_paragraph := false }
  else st

/-- `close_list()`: emit `</ul>` and/or `</ol>` for whichever list flags are
set. -/
def close_list (st : MdState) : MdState :=
  let st :=
    if st.in_list then
      { st with html_lines := st.html_lines ++ ["</ul>".toList], in_list := false }
    else st
  if st.in_ordered_list then
    { st with html_lines := st.html_lines ++ ["</ol>".toList], in_ordered_list := false }
  else st

/-- The heading regex `(#+)\s*(H\d)?(:\s*)?(.*)` applied to a line that
starts with `#`: returns the heading level and the remaining text
(group 4, stripped). -/
def headingParse (line : List Char) : Nat × List Char :=
  let level := (line.takeWhile (fun c => c = '#')).length
  let afterHash := (line.drop level).dropWhile Char.isWhitespace
  let afterH :=
    match afterHash with
    | 'H' :: d :: rest => if d.isDigit then rest else afterHash
    | _ => afterHash
  let afterColon :=
    match afterH with
    | ':' :: rest => rest.dropWhile Char.isWhitespace
    | _ => afterH
  (level, pyStrip afterColon)

/-- The per-line body of the Markdown Converter's loop (lines 477-541). -/
def mdStep (st : MdState) (rawLine : List Char) : Option MdState :=
  let line := pyStrip rawLine
  if line.head? = some '#' then
    let st := close_list (close_paragraph st)
    let parsed := headingParse line
    if 1 ≤ parsed.1 ∧ parsed.1 ≤ 6 then
      some { st with html_lines := st.html_lines ++
        ['<' :: 'h' :: ((Nat.repr parsed.1).toList ++ ['>'] ++ parsed.2 ++
          ('<' :: '/' :: 'h' :: ((Nat.repr parsed.1).toList ++ ['>'])))] }
    else some st
  else if ('-' :: ' ' :: []).isPrefixOf line then
    let st := close_paragraph st
    let st :=
      if !st.in_list then
        { st with
            html_lines := st.html_lines ++ ["<ul class=\"list\" role=\"list\">".toList],
            in_list := true }
      else st
    let text := boldSub (pyStrip (line.drop 2))
    some { st with html_lines := st.html_lines ++
      [' ' :: ' ' :: ("<li>".toList ++ text ++ "</li>".toList)] }
  else
    let st :=
      if st.in_list then
        { st with html_lines := st.html_lines ++ ["</ul>".toList], in_list := false }
      else st
    if numberedLineMatch line then
      let st := close_paragraph st
      let st :=
        if !st.in_ordered_list then
          { st with
              html_lines := st.html_lines ++ ["<ol class=\"list\" role=\"list\">".toList],
              in_ordered_list := true }
        else st
      match splitFirst line ('.' :: ' ' :: []) with
      | none => none
      | some pieces =>
        let text := boldSub (pyStrip pieces.2)
        some { st with html_lines := st.html_lines ++
          ["<li>".toList ++ text ++ "</li>".toList] }
    else
      let st :=
        if st.in_ordered_list then
          { st with html_lines := st.html_lines ++ ["</ol>".toList], in_ordered_list := false }
        else st
      let st :=
        if !st.in_paragraph then
          { st with html_lines := st.html_lines ++ ["<p>".toList], in_paragraph := true }
        else st
      let sublines := line.splitOn '\n'
      some (sublines.foldl
        (fun st subline =>
          if pyStrip subline ≠ [] then
            let s := boldSub (pyStrip subline)
            let st := { st with html_lines := st.html_lines ++ [s] }
            let st := close_paragraph st
            if s ≠ sublines.getLast?.getD [] then
              { st with html_lines := st.html_lines ++ ["<p>".toList], in_paragraph := true }
            else st
          else st)
        st)

/-- The Markdown Converter's initial state. -/
def mdInit : MdState :=
  { html_lines := [], in_list := false, in_ordered_list := false, in_paragraph := false }

/-- The state after scanning all lines (before the final close-out);
`none` when some line raised. -/
def mdRun (lines : List (List Char)) : Option MdState :=
  lines.foldlM mdStep mdInit

/-- `markdown_to_html(markdown_text)`: scan the split lines, close whatever
remains open, join with newlines. -/
def markdown_to_html (markdown_text : List Char) : Option (List Char) := do
  let st ← mdRun (pySplitlines markdown_text)
  let st := close_list (close_paragraph st)
  pure (List.intercalate ['\n'] st.html_lines)

/-! ## Theorems -/

/-! ### Basic facts about `strFind` -/

theorem strFind_eq_none_of_gt {content sub : List Char} {start : Nat}
    (h : content.length < start) : strFind content sub start = none := by
  apply List.find?_eq_none.mpr
  intro i hi
  simp only [List.mem_range] at hi
  simp only [Bool.and_eq_true, decide_eq_true_eq, not_and]
  intro hle
  omega

theorem strFind_some {content sub : List Char} {start i : Nat}
    (h : strFind content sub start = some i) :
    start ≤ i ∧ i ≤ content.length ∧ sub.isPrefixOf (content.drop i) = true := by
  have hp := List.find?_some h
  have hm := List.mem_of_find?_eq_some h
  simp only [List.mem_range] at hm
  simp only [Bool.and_eq_true, decide_eq_true_eq] at hp
  exact ⟨hp.1, by omega, hp.2⟩

/-! ### C7: the Marker Locator agrees with the specified left-to-right
non-overlapping scan -/

theorem scanPositions_ge (content sub : List Char) :
    ∀ (fuel start : Nat), ∀ j ∈ scanPositions content sub start fuel, start ≤ j := by
  intro fuel
  induction fuel with
  | zero => intro start j hj; simp [scanPositions] at hj
  | succ fuel ih =>
    intro start j hj
    simp only [scanPositions] at hj
    cases hfind : strFind content sub start with
    | none => rw [hfind] at hj; simp at hj
    | some i =>
      rw [hfind] at hj
      simp only [List.mem_cons] at hj
      rcases hj with rfl | hj
      · exact (strFind_some hfind).1
      · have := ih (i + sub.length) j hj
        have := (strFind_some hfind).1
        omega

theorem scanPositions_isMatch (content sub : List Char) :
    ∀ (fuel start : Nat), ∀ j ∈ scanPositions content sub start fuel,
      sub.isPrefixOf (content.drop j) = true := by
  intro fuel
  induction fuel with
  | zero => intro start j hj; simp [scanPositions] at hj
  | succ fuel ih =>
    intro start j hj
    simp only [scanPositions] at hj
    cases hfind : strFind content sub start with
    | none => rw [hfind] at hj; simp at hj
    | some i =>
      rw [hfind] at hj
      simp only [List.mem_cons] at hj
      rcases hj with rfl | hj
      · exact (strFind_some hfind).2.2
      · exact ih (i + sub.length) j hj

theorem scanPositions_chain (content sub : List Char) :
    ∀ (fuel start : Nat),
      List.Chain' (fun a b => a + sub.length ≤ b) (scanPositions content sub start fuel) := by
  intro fuel
  induction fuel with
  | zero => intro start; simp [scanPositions]
  | succ fuel ih =>
    intro start
    simp only [scanPositions]
    cases hfind : strFind content sub start with
    | none => simp
    | some i =>
      refine List.chain'_cons'.mpr ⟨?_, ih (i + sub.length)⟩
      intro b hb
      have hmem : b ∈ scanPositions content sub (i + sub.length) fuel :=
        List.mem_of_mem_head? hb
      exact scanPositions_ge content sub fuel (i + sub.length) b hmem

theorem scanPositions_congr {content sub : List Char} (hsub : sub ≠ []) :
    ∀ (f₁ f₂ start : Nat), content.length + 1 ≤ start + f₁ →
      content.length + 1 ≤ start + f₂ →
      scanPositions content sub start f₁ = scanPositions content sub start f₂ := by
  intro f₁
  induction f₁ with
  | zero =>
    intro f₂ start h₁ h₂
    have hnone : strFind content sub start = none := strFind_eq_none_of_gt (by omega)
    cases f₂ with
    | zero => rfl
    | succ f₂ => simp [scanPositions, hnone]
  | succ f₁ ih =>
    intro f₂ start h₁ h₂
    cases f₂ with
    | zero =>
      have hnone : strFind content sub start = none := strFind_eq_none_of_gt (by omega)
      simp [scanPositions, hnone]
    | succ f₂ =>
      cases hfind : strFind content sub start with
      | none => simp [scanPositions, hfind]
      | some i =>
        have hb := strFind_some hfind
        have hlen : 0 < sub.length := List.length_pos.mpr hsub
        simp [scanPositions, hfind, ih f₂ (i + sub.length) (by omega) (by omega)]

theorem findNthGo_eq_scan {content sub : List Char} {n : Nat} (hsub : sub ≠ []) :
    ∀ (fuel count start : Nat), count < n → n - count ≤ fuel →
      content.length + 1 ≤ start + fuel →
      findNthGo content sub n count start fuel =
        some (posResult ((scanPositions content sub start fuel).get? (n - count - 1))) := by
  intro fuel
  induction fuel with
  | zero => intro count start hc hf _; omega
  | succ fuel ih =>
    intro count start hc hf hlen
    cases hfind : strFind content sub start with
    | none => simp [findNthGo, scanPositions, hfind, posResult]
    | some i =>
      have hb := strFind_some hfind
      have hsl : 0 < sub.length := List.length_pos.mpr hsub
      by_cases hcn : count + 1 = n
      · have h0 : n - count - 1 = 0 := by omega
        simp [findNthGo, scanPositions, hfind, hcn, h0, posResult]
      · have hcn' : count + 1 < n := by omega
        have hstep : findNthGo content sub n count start (fuel + 1) =
            findNthGo content sub n (count + 1) (i + sub.length) fuel := by
          simp [findNthGo, hfind, hcn]
        have h1 : n - count - 1 = (n - (count + 1) - 1) + 1 := by omega
        rw [hstep, ih (count + 1) (i + sub.length) hcn' (by omega) (by omega)]
        simp [scanPositions, hfind, h1]

/-- C7 — Marker Locator: `find_nth_occurrence` scans left to right, each
match advancing the cursor by the marker's length (the positions of
`locateSpecList` are genuine matches and never overlap), and returns the
0-based offset of the nth match of that scan, or `-1` when fewer than `n`
matches exist. -/
theorem find_nth_occurrence_spec (content sub : List Char) (n : Nat)
    (hsub : sub ≠ []) (hn : 1 ≤ n) :
    find_nth_occurrence content sub n =
      some (posResult ((locateSpecList content sub).get? (n - 1))) ∧
    (∀ j ∈ locateSpecList content sub, sub.isPrefixOf (content.drop j) = true) ∧
    List.Chain' (fun a b => a + sub.length ≤ b) (locateSpecList content sub) := by
  refine ⟨?_, scanPositions_isMatch content sub _ 0, scanPositions_chain content sub _ 0⟩
  unfold find_nth_occurrence locateSpecList
  rw [findNthGo_eq_scan hsub (content.length + n + 2) 0 0 (by omega) (by omega) (by omega)]
  rw [scanPositions_congr hsub (content.length + n + 2) (content.length + 1) 0
    (by omega) (by omega)]
  simp

/-- Witness for C7 at the spec's concrete inputs. -/
theorem find_nth_occurrence_spec_witness :
    find_nth_occurrence "ababab".toList "ab".toList 2 = some 2 ∧
    find_nth_occurrence "ababab".toList "ab".toList 4 = some (-1) := by
  constructor
  · rw [(find_nth_occurrence_spec "ababab".toList "ab".toList 2
      (by decide) (by decide)).1]
    decide
  · rw [(find_nth_occurrence_spec "ababab".toList "ab".toList 4
      (by decide) (by decide)).1]
    decide

/-! ### C5: extract-then-replace-with-itself round trip -/

theorem findNthGo_result {content sub : List Char} {n : Nat} :
    ∀ (fuel count start : Nat) (r : Int),
      findNthGo content sub n count start fuel = some r → r = -1 ∨ 0 ≤ r := by
  intro fuel
  induction fuel with
  | zero => intro count start r h; simp [findNthGo] at h
  | succ fuel ih =>
    intro count start r h
    cases hfind : strFind content sub start with
    | none =>
      simp [findNthGo, hfind] at h
      left
      omega
    | some i =>
      by_cases hcn : count + 1 = n
      · simp [findNthGo, hfind, hcn] at h
        right
        omega
      · simp only [findNthGo, hfind, if_neg hcn] at h
        exact ih (count + 1) (i + sub.length) r h

theorem find_nth_occurrence_result {content sub : List Char} {n : Nat} {r : Int}
    (h : find_nth_occurrence content sub n = some r) : r = -1 ∨ 0 ≤ r :=
  findNthGo_result _ _ _ r h

theorem take_mid_drop {α : Type} (l : List α) (a b : Nat) (h : a ≤ b) :
    l.take a ++ ((l.take b).drop a) ++ l.drop b = l := by
  have h1 : l.take a = (l.take b).take a := by
    rw [List.take_take, Nat.min_eq_left h]
  rw [h1, List.take_append_drop, List.take_append_drop]

/-- C5 — Segment Engine round trip: whenever both the `startOcc`-th start
marker and the subsequent `endOcc`-th end marker are found, extracting the
segment and splicing it back in its own place reproduces the content
exactly, with no log messages emitted. -/
theorem extract_replace_round_trip (html_content search_start_marker
    search_end_marker : List Char) (start_occurrence end_occurrence : Nat)
    (s e : Int)
    (hs : find_nth_occurrence html_content search_start_marker start_occurrence = some s)
    (hs1 : s ≠ -1)
    (he : find_nth_occurrence
      (pySliceFrom html_content (s + search_start_marker.length))
      search_end_marker end_occurrence = some e)
    (he1 : e ≠ -1) :
    ∃ seg, get_segment_in_html html_content search_start_marker search_end_marker
        start_occurrence end_occurrence = some seg ∧
      replace_segment_in_html html_content search_start_marker search_end_marker
        seg start_occurrence end_occurrence = some (html_content, []) := by
  have hs0 : 0 ≤ s := by
    rcases find_nth_occurrence_result hs with h | h
    · exact absurd h hs1
    · exact h
  have he0 : 0 ≤ e := by
    rcases find_nth_occurrence_result he with h | h
    · exact absurd h he1
    · exact h
  refine ⟨pySlice html_content s
    (s + ↑search_start_marker.length + e + ↑search_end_marker.length), ?_, ?_⟩
  · simp [get_segment_in_html, hs, hs1, he, he1]
  · simp only [replace_segment_in_html, hs, Option.pure_def, Option.bind_eq_bind,
      Option.some_bind, he, if_neg hs1, if_neg he1,
      List.append_nil, List.nil_append, Option.some.injEq, Prod.mk.injEq, and_true]
    unfold pySliceTo pySlice pySliceFrom pyNorm
    have hB : s ≤ s + ↑search_start_marker.length + e + ↑search_end_marker.length := by
      omega
    simp only [if_neg (show ¬ s < 0 by omega),
      if_neg (show ¬ s + ↑search_start_marker.length + e + ↑search_end_marker.length < 0 by omega)]
    apply take_mid_drop
    exact min_le_min (Int.toNat_le_toNat hB) (le_refl _)

/-- Witness for C5 on a concrete valid segment. -/
theorem extract_replace_round_trip_witness :
    ∃ seg, get_segment_in_html "x<a>mid</a>y".toList "<a>".toList "</a>".toList 1 1 =
        some seg ∧
      replace_segment_in_html "x<a>mid</a>y".toList "<a>".toList "</a>".toList
        seg 1 1 = some ("x<a>mid</a>y".toList, []) := by
  exact extract_replace_round_trip "x<a>mid</a>y".toList "<a>".toList "</a>".toList
    1 1 1 3 (by decide) (by decide) (by decide) (by decide)

/-! ### C1: the replace operation does not abort on a missing marker -/

/-- C1 — contrary to the claim (and to the function's own docstring
"If occurrences are not found, terminate."), `replace_segment_in_html` only
logs when the start marker is missing and then continues with the `-1`
index, returning a modified (corrupted) string instead of aborting: on
content `"hello"` with absent start marker `"X"` and end marker `"l"` it
returns `"hellRlo"`. -/
theorem replace_segment_missing_start_modifies :
    replace_segment_in_html "hello".toList "X".toList "l".toList "R".toList 1 1 =
      some ("hellRlo".toList, [LogMsg.startNotFound "X".toList 1]) ∧
    "hellRlo".toList ≠ "hello".toList := by
  decide

/-! ### C2: `"1. B"` is not classified as a numbered item -/

/-- C2 — the source's raw-string regex `r"^[0-9]+[\.)]\\s?"` demands a
literal backslash after the digits and dot, so `"1. B"` falls through to
the plain-paragraph branch: `["--\tA", "1. B"]` produces `</ul>` followed
by a paragraph for `"1. B"`, not an ordered list with item `B`. -/
theorem numbered_item_misclassified :
    numberRegexMatch "1. B".toList = false ∧
    docxFrags ["--\tA".toList, "1. B".toList] =
      [Frag.openTag ListKind.ul, Frag.listItem "A".toList, Frag.closeTag ListKind.ul,
       Frag.paragraphFrag "1. B".toList] := by
  decide

/-! ### C3: the three Markdown flags are not mutually exclusive -/

/-- C3 — after the bullet line of `"1. a\n- b"` both `in_list` and
`in_ordered_list` are true simultaneously: the bullet branch `continue`s
before the ordered-list-closing `else` can run. -/
theorem markdown_flags_not_exclusive :
    (mdRun (pySplitlines "1. a\n- b".toList)).map
      (fun st => (st.in_list, st.in_ordered_list)) = some (true, true) := by
  decide

/-! ### C6: best-effort policy of the Bulk Marker Replacer -/

/-- C6 — whenever the leftmost occurrence of a pair's start marker has no
following end marker, the per-pair loop returns immediately with the
content unchanged and exactly one warning recorded (no exception), and
`replace_all_markers_in_html` continues with the remaining pairs from that
unchanged content, retaining the recorded warning. -/
theorem bulk_unmatched_start (start_marker end_marker start_tag end_tag
    content : List Char) (logs : List LogMsg)
    (rest : List ((List Char × List Char) × (List Char × List Char)))
    (fuel start_idx : Nat)
    (h1 : strFind content start_marker 0 = some start_idx)
    (h2 : strFind content end_marker (start_idx + start_marker.length) = none) :
    processPairGo start_marker end_marker start_tag end_tag (fuel + 1) content logs =
      some (content, logs ++ [LogMsg.unmatchedStart start_marker end_marker]) ∧
    replace_all_markers_in_html content
        (((start_marker, end_marker), (start_tag, end_tag)) :: rest) (fuel + 1) =
      rest.foldlM
        (fun (acc : List Char × List LogMsg) m =>
          processPairGo m.1.1 m.1.2 m.2.1 m.2.2 (fuel + 1) acc.1 acc.2)
        (content, [LogMsg.unmatchedStart start_marker end_marker]) := by
  have hp : ∀ l, processPairGo start_marker end_marker start_tag end_tag
      (fuel + 1) content l =
      some (content, l ++ [LogMsg.unmatchedStart start_marker end_marker]) := by
    intro l
    simp [processPairGo, h1, h2]
  refine ⟨hp logs, ?_⟩
  simp only [replace_all_markers_in_html, List.foldlM_cons, hp, List.nil_append,
    Option.bind_eq_bind, Option.some_bind]

/-- Witness for C6 at the spec's concrete input `"X<a>keep"`. -/
theorem bulk_unmatched_start_witness :
    processPairGo "<a>".toList "</a>".toList "<b>".toList "</b>".toList 3
      "X<a>keep".toList [] =
      some ("X<a>keep".toList, [LogMsg.unmatchedStart "<a>".toList "</a>".toList]) ∧
    replace_all_markers_in_html "X<a>keep".toList
      [(("<a>".toList, "</a>".toList), ("<b>".toList, "</b>".toList))] 3 =
      some ("X<a>keep".toList, [LogMsg.unmatchedStart "<a>".toList "</a>".toList]) := by
  have h := bulk_unmatched_start "<a>".toList "</a>".toList "<b>".toList "</b>".toList
    "X<a>keep".toList [] [] 2 1 (by decide) (by decide)
  refine ⟨h.1, ?_⟩
  rw [h.2]
  decide

/-! ### C9: the Bulk Marker Replacer can fail to terminate -/

theorem processPairGo_step (start_marker end_marker start_tag end_tag : List Char)
    (fuel : Nat) (content : List Char) (logs : List LogMsg) (si ei : Nat)
    (h1 : strFind content start_marker 0 = some si)
    (h2 : strFind content end_marker (si + start_marker.length) = some ei) :
    processPairGo start_marker end_marker start_tag end_tag (fuel + 1) content logs =
      processPairGo start_marker end_marker start_tag end_tag fuel
        (content.take si ++ start_tag ++ ((content.take ei).drop (si + start_marker.length)) ++
          end_tag ++ content.drop (ei + end_marker.length)) logs := by
  simp [processPairGo, h1, h2]

/-- C9 — non-termination: with the pair `("a","b") → ("a","b")` on content
`"ab"`, each iteration of the per-pair loop rebuilds identical content, so
no amount of fuel makes the loop (or `replace_all_markers_in_html`)
finish. -/
theorem bulk_replacer_nonterminating :
    (∀ fuel logs, processPairGo "a".toList "b".toList "a".toList "b".toList
      fuel "ab".toList logs = none) ∧
    (∀ fuel, replace_all_markers_in_html "ab".toList
      [(("a".toList, "b".toList), ("a".toList, "b".toList))] fuel = none) := by
  have key : ∀ fuel logs, processPairGo "a".toList "b".toList "a".toList "b".toList
      fuel "ab".toList logs = none := by
    intro fuel
    induction fuel with
    | zero => intro logs; rfl
    | succ fuel ih =>
      intro logs
      rw [processPairGo_step "a".toList "b".toList "a".toList "b".toList fuel
        "ab".toList logs 0 1 (by decide) (by decide)]
      have hupd : "ab".toList.take 0 ++ "a".toList ++
          (("ab".toList.take 1).drop (0 + "a".toList.length)) ++ "b".toList ++
          "ab".toList.drop (1 + "b".toList.length) = "ab".toList := by decide
      rw [hupd]
      exact ih logs
  refine ⟨key, ?_⟩
  intro fuel
  simp only [replace_all_markers_in_html, List.foldlM_cons, Option.bind_eq_bind]
  rw [key fuel []]
  rfl

/-! ### C4: escaping in converter-emitted text -/

theorem pyReplaceChar_eq_bind (old : Char) (new : List Char) :
    ∀ s, pyReplaceChar old new s = s.flatMap (fun c => if c = old then new else [c]) := by
  intro s
  induction s with
  | nil => rfl
  | cons c rest ih => simp [pyReplaceChar, ih]

/-- The chained `&`/`<`/`>` replacements act as a single per-character
escaping pass: each source character is escaped exactly once, and the `&`
introduced by an earlier replacement is never escaped again. -/
theorem escape_html_chars_eq_bind :
    ∀ s, escape_html_chars s = s.flatMap escChar := by
  intro s
  unfold escape_html_chars
  rw [pyReplaceChar_eq_bind, pyReplaceChar_eq_bind, pyReplaceChar_eq_bind,
    List.flatMap_assoc, List.flatMap_assoc]
  congr 1
  funext c
  by_cases hamp : c = '&'
  · subst hamp; decide
  · by_cases hlt : c = '<'
    · subst hlt; decide
    · by_cases hgt : c = '>'
      · subst hgt; decide
      · simp [escChar, hamp, hlt, hgt]

/-- C4 (amended) — in the Nested List Converter, emitted text is escaped
exactly once per character (`&` becomes `&amp;`, never `&amp;amp;`; `<`
becomes `&lt;`; `>` becomes `&gt;`), as the chained replacements equal a
single per-character pass; the Markdown Converter, by contrast, performs no
escaping (see the counterexample). -/
theorem escape_exactly_once :
    (∀ s, escape_html_chars s = s.flatMap escChar) ∧
    escape_html_chars "&".toList = "&amp;".toList ∧
    docxFrags ["--\tA & B".toList] =
      [Frag.openTag ListKind.ul, Frag.listItem "A &amp; B".toList,
       Frag.closeTag ListKind.ul] := by
  exact ⟨escape_html_chars_eq_bind, by decide, by decide⟩

/-- C4 counterexample — the Markdown Converter emits `&` unescaped: the
claim's "either converter" fails on `markdown_to_html`. -/
theorem markdown_no_escaping :
    markdown_to_html "a & b".toList = some "<p>\na & b\n</p>".toList ∧
    ¬ List.IsInfix "&amp;".toList "<p>\na & b\n</p>".toList := by
  decide

/-! ### C8: stack discipline of the Nested List Converter -/

theorem runTags_append :
    ∀ (a b : List Frag) (stack : List ListKind),
      runTags (a ++ b) stack = (runTags a stack).bind (fun s => runTags b s) := by
  intro a
  induction a with
  | nil => intro b stack; simp [runTags]
  | cons f fs ih =>
    intro b stack
    cases f with
    | openTag k => simp [runTags, ih]
    | closeTag k =>
      cases stack with
      | nil => simp [runTags]
      | cons k' rest =>
        by_cases h : k = k' <;> simp [runTags, h, ih]
    | listItem s => simp [runTags, ih]
    | paragraphFrag s => simp [runTags, ih]

theorem runTags_closeTags (ks : List ListKind) :
    ∀ (stack : List ListKind),
      runTags (ks.map Frag.closeTag) (ks ++ stack) = some stack := by
  induction ks with
  | nil => intro stack; simp [runTags]
  | cons k ks ih => intro stack; simp [runTags, ih]

theorem runTags_opens (k : ListKind) :
    ∀ (m : Nat) (stack : List ListKind),
      runTags (List.replicate m (Frag.openTag k)) stack =
        some (List.replicate m k ++ stack) := by
  intro m
  induction m with
  | zero => intro stack; simp [runTags]
  | succ m ih =>
    intro stack
    rw [List.replicate_succ, List.replicate_succ']
    simp only [runTags, ih, List.append_assoc, List.cons_append, List.nil_append]

theorem close_to_level_inv (st : DocxState) (level : Nat)
    (h : runTags st.frags [] = some st.list_stack) :
    runTags (close_to_level st level).frags [] =
      some (close_to_level st level).list_stack := by
  simp only [close_to_level]
  rw [runTags_append, h, Option.some_bind]
  have h2 := runTags_closeTags (st.list_stack.take (st.list_stack.length - level))
    (st.list_stack.drop (st.list_stack.length - level))
  rw [List.take_append_drop] at h2
  exact h2

theorem open_lists_to_inv (st : DocxState) (k : ListKind) (desired : Nat)
    (h : runTags st.frags [] = some st.list_stack) :
    runTags (open_lists_to st k desired).frags [] =
      some (open_lists_to st k desired).list_stack := by
  simp only [open_lists_to]
  rw [runTags_append, h, Option.some_bind]
  exact runTags_opens k _ _

theorem open_list_inv (st : DocxState) (k : ListKind)
    (h : runTags st.frags [] = some st.list_stack) :
    runTags (open_list st k).frags [] = some (open_list st k).list_stack := by
  simp only [open_list]
  rw [runTags_append, h, Option.some_bind]
  rfl

theorem close_all_lists_inv (st : DocxState)
    (h : runTags st.frags [] = some st.list_stack) :
    runTags (close_all_lists st).frags [] = some (close_all_lists st).list_stack := by
  simp only [close_all_lists]
  rw [runTags_append, h, Option.some_bind]
  have := runTags_closeTags st.list_stack []
  simpa using this

theorem runTags_listItem_append (fr : List Frag) (s : List Char)
    (stack : List ListKind) (h : runTags fr [] = some stack) :
    runTags (fr ++ [Frag.listItem s]) [] = some stack := by
  rw [runTags_append, h]
  rfl

theorem runTags_paragraph_append (fr : List Frag) (s : List Char)
    (stack : List ListKind) (h : runTags fr [] = some stack) :
    runTags (fr ++ [Frag.paragraphFrag s]) [] = some stack := by
  rw [runTags_append, h]
  rfl

theorem docxStep_inv (st : DocxState) (p : List Char)
    (h : runTags st.frags [] = some st.list_stack) :
    runTags (docxStep st p).frags [] = some (docxStep st p).list_stack := by
  simp only [docxStep]
  split_ifs
  all_goals first
    | exact runTags_listItem_append _ _ _ (close_to_level_inv st _ h)
    | exact runTags_listItem_append _ _ _ (open_lists_to_inv st _ _ h)
    | exact runTags_listItem_append _ _ _
        (open_list_inv _ _ (close_to_level_inv st _ h))
    | exact runTags_listItem_append _ _ _ h
    | exact runTags_paragraph_append _ _ _ (close_all_lists_inv st h)

theorem foldl_docxStep_inv :
    ∀ (ps : List (List Char)) (st0 : DocxState),
      runTags st0.frags [] = some st0.list_stack →
      runTags (ps.foldl docxStep st0).frags [] =
        some (ps.foldl docxStep st0).list_stack := by
  intro ps
  induction ps with
  | nil => intro st0 h; exact h
  | cons p ps ih => intro st0 h; exact ih (docxStep st0 p) (docxStep_inv st0 p h)

theorem docxStep_stack_length (st : DocxState) (p : List Char) :
    (docxStep st p).list_stack.length ≤
      max st.list_stack.length (indentOf p + 1) := by
  simp only [docxStep]
  split_ifs
  all_goals
    simp only [close_to_level, open_lists_to, open_list, close_all_lists,
      List.length_drop, List.length_append, List.length_replicate,
      List.length_cons, List.length_nil]
  all_goals omega

theorem scanl_stack_le (B : Nat) :
    ∀ (ps : List (List Char)) (st0 : DocxState),
      st0.list_stack.length ≤ B → (∀ p ∈ ps, indentOf p + 1 ≤ B) →
      ∀ st ∈ List.scanl docxStep st0 ps, st.list_stack.length ≤ B := by
  intro ps
  induction ps with
  | nil =>
    intro st0 h0 _ st hst
    simp [List.scanl] at hst
    subst hst
    exact h0
  | cons p ps ih =>
    intro st0 h0 hps st hst
    simp only [List.scanl, List.mem_cons] at hst
    rcases hst with rfl | hst
    · exact h0
    · refine ih (docxStep st0 p) ?_ (fun q hq => hps q (List.mem_cons_of_mem _ hq)) st hst
      exact le_trans (docxStep_stack_length st0 p)
        (max_le h0 (hps p (List.mem_cons_self _ _)))

theorem indentOf_le_maxIndent :
    ∀ (ps : List (List Char)) (p : List Char), p ∈ ps → indentOf p ≤ maxIndent ps := by
  intro ps
  induction ps with
  | nil => intro p hp; simp at hp
  | cons q ps ih =>
    intro p hp
    rcases List.mem_cons.mp hp with rfl | hp
    · exact le_max_left _ _
    · exact le_trans (ih p hp) (le_max_right _ _)

/-- C8 (amended) — Nested List Converter stack discipline: the stack depth
(a natural number, hence non-negative) after each paragraph is bounded by
one plus the maximum tab-indentation seen; the stack is empty at the end of
every conversion run; and in the emitted fragment stream every `<ul>`/`<ol>`
open tag is matched by its properly nested close tag (`runTags` ends with
an empty stack and never fails). -/
theorem docx_stack_discipline (paragraphs : List (List Char)) :
    (∀ st ∈ docxStates paragraphs,
      st.list_stack.length ≤ maxIndent paragraphs + 1) ∧
    (close_all_lists (paragraphs.foldl docxStep docxInit)).list_stack = [] ∧
    runTags (docxFrags paragraphs) [] = some [] := by
  refine ⟨?_, rfl, ?_⟩
  · exact scanl_stack_le (maxIndent paragraphs + 1) paragraphs docxInit
      (by simp [docxInit])
      (fun p hp => by
        have := indentOf_le_maxIndent paragraphs p hp
        omega)
  · have hinv := foldl_docxStep_inv paragraphs docxInit (by rfl)
    have := close_all_lists_inv (paragraphs.foldl docxStep docxInit) hinv
    simpa [docxFrags, close_all_lists] using this

/-- C8 counterexample — read literally, "depth bounded by the maximum
indentation seen" fails: the single paragraph `"--\tA"` has maximum
indentation 0 (no tabs), yet the stack reaches depth 1. -/
theorem docx_stack_exceeds_indent :
    maxIndent ["--\tA".toList] = 0 ∧
    (docxStates ["--\tA".toList]).map (fun st => st.list_stack.length) = [0, 1] := by
  decide

/-! ### C10: blank lines in the Markdown Converter -/

/-- C10 — a blank line (empty after trimming) closes any open unordered or
ordered list and, when no paragraph is open, emits `<p>` and marks a
paragraph open while emitting no text (when a paragraph is already open it
emits nothing); consequently `markdown_to_html "\n"` returns
`"<p>\n</p>"`. -/
theorem markdown_blank_line (st : MdState) (line : List Char)
    (h : pyStrip line = []) :
    mdStep st line = some
      { html_lines := st.html_lines
          ++ (if st.in_list then ["</ul>".toList] else [])
          ++ (if st.in_ordered_list then ["</ol>".toList] else [])
          ++ (if st.in_paragraph then [] else ["<p>".toList]),
        in_list := false, in_ordered_list := false, in_paragraph := true } ∧
    markdown_to_html "\n".toList = some "<p>\n</p>".toList := by
  constructor
  · simp only [mdStep, h]
    rcases st with ⟨hl, il, iol, ip⟩
    cases il <;> cases iol <;> cases ip <;>
      simp [close_paragraph, numberedLineMatch, pyStrip]
  · decide

/-- Witness for C10: a blank line with an ordered list open and no
paragraph open. -/
theorem markdown_blank_line_witness :
    mdStep
      { html_lines := [], in_list := false, in_ordered_list := true,
        in_paragraph := false } " ".toList =
      some
        { html_lines := ["</ol>".toList, "<p>".toList],
          in_list := false, in_ordered_list := false, in_paragraph := true } ∧
    markdown_to_html "\n".toList = some "<p>\n</p>".toList := by
  have h := markdown_blank_line
    { html_lines := [], in_list := false, in_ordered_list := true,
      in_paragraph := false } " ".toList (by decide)
  refine ⟨?_, h.2⟩
  rw [h.1]
  decide

end WebsiteAutomation
